import Mathlib

/-!
Shallow embedding of the payload-field indexing layer of the repository:
the frozen memory-mapped map index (`mmap_map_index.rs`) and the index
type-dispatch layer (`index_selector.rs`).

External collaborators (the on-disk hash map `MmapHashMap`, the columnar
`MmapPointToValues` store, the buffered deleted-bit slice) are not under
`src/`; they are modelled from the spec where noted.  Machine integers
(`PointOffsetType = u32`, `usize`) are modelled as `Nat`: all casts in the
embedded code are widening, and no arithmetic overflows.
-/

set_option maxRecDepth 100000

/-- Modelled from the spec: the external columnar Point-to-Values Store, a
structure "mapping a point identifier to its (possibly empty) list of field
values" with random access; absence of an entry (out of range) = no values. -/
structure MmapPointToValues (N : Type) where
  rows : List (List N)

/-- Number of points known to the store (`MmapPointToValues::len`). -/
def MmapPointToValues.len {N : Type} (s : MmapPointToValues N) : Nat :=
  s.rows.length

/-- Modelled from the spec: random access to one point's values; out of the
known range there is no entry, so the result is absent. -/
def MmapPointToValues.get_values {N : Type} (s : MmapPointToValues N) (idx : Nat) :
    Option (List N) :=
  s.rows.get? idx

/-- Modelled from the spec: count of one point's values, absent out of range. -/
def MmapPointToValues.get_values_count {N : Type} (s : MmapPointToValues N) (idx : Nat) :
    Option Nat :=
  (s.rows.get? idx).map List.length

/-- Modelled from the spec: whether any stored value of point `idx` satisfies
the predicate; false when the point is out of the known range. -/
def MmapPointToValues.check_values_any {N : Type} (s : MmapPointToValues N) (idx : Nat)
    (check_fn : N → Bool) : Bool :=
  ((s.rows.get? idx).getD []).any check_fn

/-- Modelled from the spec: the external on-disk Mmap Hash Map collaborator,
"mapping a value key to a variable-length list of point identifiers".  Its
`get` is fallible (the on-disk read can fail), modelled by `Except Unit`;
`keys_list` backs `keys_count` and iteration. -/
structure MmapHashMap (N : Type) where
  get_raw : N → Except Unit (Option (List Nat))
  keys_list : List N

/-- Modelled from the spec: `MmapHashMap::create` from an association list of
(value, point ids) entries (the build-time inverted map, distinct keys);
lookups on the freshly created map never fail. -/
def MmapHashMap.create {N : Type} [BEq N] (entries : List (N × List Nat)) : MmapHashMap N :=
  { get_raw := fun v => Except.ok (entries.lookup v)
    keys_list := entries.map Prod.fst }

/-- `MmapHashMap::get` (fallible read). -/
def MmapHashMap.get {N : Type} (m : MmapHashMap N) (v : N) :
    Except Unit (Option (List Nat)) :=
  m.get_raw v

/-- `MmapHashMap::keys_count`. -/
def MmapHashMap.keys_count {N : Type} (m : MmapHashMap N) : Nat :=
  m.keys_list.length

/-- State of `MmapMapIndex<N>` (mmap_map_index.rs, lines 23-30): the value→points
hash map, the point→values store, the deleted bit slice (one bit per point slot,
padded), the live deleted counter and the persisted total pair count.  The
buffered-update wrapper around the bit slice is modelled as the plain
`List Bool` it shadows. -/
structure MmapMapIndex (N : Type) where
  value_to_points : MmapHashMap N
  point_to_values : MmapPointToValues N
  deleted : List Bool
  deleted_count : Nat
  total_key_value_pairs : Nat

/-- Bit length of the deleted bit slice created by `build` for `n` points:
the file is `8 * 8 * n.div_ceil(8 * 8)` bytes (mmap_map_index.rs lines 98-105)
and the bit slice spans the whole mapping at 8 bits per byte. -/
def deletedFileBits (n : Nat) : Nat :=
  8 * (8 * 8 * ((n + 8 * 8 - 1) / (8 * 8)))

/-- The deleted bit slice as written by `build` (lines 106-113): the file is
zero-filled, then bit `idx` is set exactly for the points whose forward value
list is empty. -/
def buildDeletedBits {N : Type} (point_to_values : List (List N)) : List Bool :=
  (List.range (deletedFileBits point_to_values.length)).map fun i =>
    match point_to_values.get? i with
    | some values => values.isEmpty
    | none => false

/-- `MmapMapIndex::build` (lines 62-117): persists
`total_key_value_pairs = Σ |values(p)|`, creates the hash map from the inverted
map and the point-to-values store from the forward map, writes the deleted bit
file (empty-valued points pre-marked deleted), then reopens via `load`, which
recomputes `deleted_count` as the number of ones in the bit slice. -/
def MmapMapIndex.build {N : Type} [BEq N] (point_to_values : List (List N))
    (values_to_points : List (N × List Nat)) : MmapMapIndex N :=
  { value_to_points := MmapHashMap.create values_to_points
    point_to_values := ⟨point_to_values⟩
    deleted := buildDeletedBits point_to_values
    deleted_count := (buildDeletedBits point_to_values).count true
    total_key_value_pairs := (point_to_values.map List.length).sum }

/-- `MmapMapIndex::remove_point` (lines 142-148): if `idx` is inside the bit
slice and its bit is currently clear, set the bit and bump `deleted_count`;
otherwise do nothing. -/
def MmapMapIndex.remove_point {N : Type} (s : MmapMapIndex N) (idx : Nat) :
    MmapMapIndex N :=
  if idx < s.deleted.length ∧ (s.deleted.get? idx).getD true = false then
    { s with deleted := s.deleted.set idx true, deleted_count := s.deleted_count + 1 }
  else s

/-- `MmapMapIndex::check_values_any` (lines 150-157), faithful to the source:
when `deleted.get(idx).unwrap_or(true)` holds it checks the stored values,
otherwise it returns false. -/
def MmapMapIndex.check_values_any {N : Type} (s : MmapMapIndex N) (idx : Nat)
    (check_fn : N → Bool) : Bool :=
  if (s.deleted.get? idx).getD true then
    s.point_to_values.check_values_any idx check_fn
  else
    false

/-- `MmapMapIndex::get_values` (lines 159-168): values of a live point, absent
when the deleted bit is set or defaults to set (out of the bit slice), or when
the store has no entry. -/
def MmapMapIndex.get_values {N : Type} (s : MmapMapIndex N) (idx : Nat) :
    Option (List N) :=
  if (s.deleted.get? idx).getD true = false then
    s.point_to_values.get_values idx
  else
    none

/-- `MmapMapIndex::values_count` (lines 170-176). -/
def MmapMapIndex.values_count {N : Type} (s : MmapMapIndex N) (idx : Nat) :
    Option Nat :=
  if (s.deleted.get? idx).getD true = false then
    s.point_to_values.get_values_count idx
  else
    none

/-- `MmapMapIndex::get_indexed_points` (lines 178-182): saturating subtraction,
which `Nat` subtraction is. -/
def MmapMapIndex.get_indexed_points {N : Type} (s : MmapMapIndex N) : Nat :=
  s.point_to_values.len - s.deleted_count

/-- `MmapMapIndex::get_values_count` (lines 186-188). -/
def MmapMapIndex.get_values_count {N : Type} (s : MmapMapIndex N) : Nat :=
  s.total_key_value_pairs

/-- `MmapMapIndex::get_unique_values_count` (lines 190-192). -/
def MmapMapIndex.get_unique_values_count {N : Type} (s : MmapMapIndex N) : Nat :=
  s.value_to_points.keys_count

/-- `MmapMapIndex::get_count_for_value` (lines 194-200):
`value_to_points.get(value).ok().flatten().map(|p| p.len())`. -/
def MmapMapIndex.get_count_for_value {N : Type} (s : MmapMapIndex N) (value : N) :
    Option Nat :=
  ((s.value_to_points.get value).toOption.join).map List.length

/-- `MmapMapIndex::get_iterator` (lines 202-208): the point list for `value`,
or the empty sequence when the lookup errors or the value is unindexed. -/
def MmapMapIndex.get_iterator {N : Type} (s : MmapMapIndex N) (value : N) :
    List Nat :=
  ((s.value_to_points.get value).toOption.join).getD []

/-- A finite sequence of `remove_point` calls, applied left to right. -/
def applyRemoves {N : Type} (s : MmapMapIndex N) (l : List Nat) : MmapMapIndex N :=
  l.foldl MmapMapIndex.remove_point s

/-! ## Index selector / builder dispatch (index_selector.rs) -/

/-- A payload field path; `to_string` is its column-name form
(`field.to_string()`, index_selector.rs line 27/97). -/
structure JsonPath where
  path : String
deriving DecidableEq

/-- The string form of the field path. -/
def JsonPath.to_string (f : JsonPath) : String :=
  f.path

/-- Integer schema parameters: the `lookup` and `range` capability flags. -/
structure IntegerParams where
  lookup : Bool
  range : Bool
deriving DecidableEq

/-- Full-text schema parameters; their contents (tokenizer configuration) are
outside this spec's scope and carried opaquely. -/
structure TextIndexParams where
deriving DecidableEq

/-- `PayloadSchemaParams`: the expanded schema parameter variants
(schema parsing itself is out of scope). -/
inductive PayloadSchemaParams where
  | Keyword
  | Integer (integer_params : IntegerParams)
  | Float
  | Geo
  | Text (text_index_params : TextIndexParams)
  | Bool
  | Datetime
  | Uuid
deriving DecidableEq

/-- Modelled from the spec: a schema field declaration, which `expand`s to its
parameter variant (`payload_schema.expand().as_ref()`). -/
structure PayloadFieldSchema where
  expandsTo : PayloadSchemaParams
deriving DecidableEq

/-- `PayloadFieldSchema::expand`. -/
def PayloadFieldSchema.expand (s : PayloadFieldSchema) : PayloadSchemaParams :=
  s.expandsTo

/-- Handle of an appendable map index: records the column name (string form of
the field path) and the appendability flag passed to `MapIndex::new`.  The
backing-store handle itself carries no information relevant here. -/
structure MapIndexHandle where
  column : String
  is_appendable : Bool
deriving DecidableEq

/-- Handle of a numeric (range) index: either frozen (`new_mmap(dir)`) or
appendable (`new(db, column, is_appendable)`). -/
inductive NumericIndexHandle where
  | mmap (dir : String)
  | rocks (column : String) (is_appendable : Bool)
deriving DecidableEq

/-- Handle of a geo map index. -/
structure GeoIndexHandle where
  column : String
  is_appendable : Bool
deriving DecidableEq

/-- Handle of a full-text index (carries the schema's tokenizer parameters). -/
structure FullTextIndexHandle where
  params : TextIndexParams
  column : String
  is_appendable : Bool
deriving DecidableEq

/-- Handle of a binary (boolean) index. -/
structure BinaryIndexHandle where
  column : String
deriving DecidableEq

/-- `MapIndex::new(db, &column, is_appendable)`. -/
def MapIndex.new (column : String) (is_appendable : Bool) : MapIndexHandle :=
  ⟨column, is_appendable⟩

/-- `NumericIndex::new(db, &column, is_appendable)`. -/
def NumericIndex.new (column : String) (is_appendable : Bool) : NumericIndexHandle :=
  .rocks column is_appendable

/-- Modelled from the spec: `NumericIndex::new_mmap(dir)`, a fallible
collaborator constructor; in this model it always succeeds with a frozen
handle over `dir` (its internal failure modes are out of scope, but the
`Except` shape preserves the source's `?` propagation). -/
def NumericIndex.new_mmap (dir : String) : Except String NumericIndexHandle :=
  .ok (.mmap dir)

/-- `FieldIndex`: the enumerated union of concrete index variants returned by
`index_selector`. -/
inductive FieldIndex where
  | KeywordIndex (h : MapIndexHandle)
  | IntMapIndex (h : MapIndexHandle)
  | IntIndex (h : NumericIndexHandle)
  | FloatIndex (h : NumericIndexHandle)
  | GeoIndex (h : GeoIndexHandle)
  | FullTextIndex (h : FullTextIndexHandle)
  | BinaryIndex (h : BinaryIndexHandle)
  | DatetimeIndex (h : NumericIndexHandle)
  | UuidIndex (h : NumericIndexHandle)
deriving DecidableEq

/-- Rust's `Option<Result<T, E>>::transpose()`. -/
def optionTranspose {E A : Type} : Option (Except E A) → Except E (Option A)
  | none => .ok none
  | some (.ok a) => .ok (some a)
  | some (.error e) => .error e

/-- `index_selector` (index_selector.rs lines 20-88): pure dispatch from the
expanded schema variant to the concrete index handle(s), loading a frozen
numeric index when `mmap_index_dir` is supplied and the type supports it. -/
def index_selector (field : JsonPath) (payload_schema : PayloadFieldSchema)
    (mmap_index_dir : Option String) (is_appendable : Bool) :
    Except String (List FieldIndex) :=
  let column : String := field.to_string
  match payload_schema.expand with
  | .Keyword => .ok [.KeywordIndex (MapIndex.new column is_appendable)]
  | .Integer integer_params => do
      let lookupPart : Option FieldIndex :=
        if integer_params.lookup then
          some (.IntMapIndex (MapIndex.new column is_appendable))
        else none
      let rangePart : Option FieldIndex ← optionTranspose
        (if integer_params.range then
          some (do
            let h ← match mmap_index_dir with
              | some dir => NumericIndex.new_mmap dir
              | none => Except.ok (NumericIndex.new column is_appendable)
            Except.ok (FieldIndex.IntIndex h))
        else none)
      .ok (lookupPart.toList ++ rangePart.toList)
  | .Float => do
      let h ← match mmap_index_dir with
        | some dir => NumericIndex.new_mmap dir
        | none => Except.ok (NumericIndex.new column is_appendable)
      .ok [.FloatIndex h]
  | .Geo => .ok [.GeoIndex ⟨column, is_appendable⟩]
  | .Text text_index_params => .ok [.FullTextIndex ⟨text_index_params, column, is_appendable⟩]
  | .Bool => .ok [.BinaryIndex ⟨column⟩]
  | .Datetime => do
      let h ← match mmap_index_dir with
        | some dir => NumericIndex.new_mmap dir
        | none => Except.ok (NumericIndex.new column is_appendable)
      .ok [.DatetimeIndex h]
  | .Uuid => do
      let h ← match mmap_index_dir with
        | some dir => NumericIndex.new_mmap dir
        | none => Except.ok (NumericIndex.new column is_appendable)
      .ok [.UuidIndex h]

/-- Builder handle of a map index (`MapIndex::builder(db, &column)`). -/
structure MapIndexBuilderHandle where
  column : String
deriving DecidableEq

/-- Builder handle of a numeric index: `builder_mmap(dir)` or
`builder(db, &column)`. -/
inductive NumericIndexBuilderHandle where
  | mmap (dir : String)
  | rocks (column : String)
deriving DecidableEq

/-- Builder handle of a geo index. -/
structure GeoIndexBuilderHandle where
  column : String
deriving DecidableEq

/-- Builder handle of a full-text index. -/
structure FullTextIndexBuilderHandle where
  params : TextIndexParams
  column : String
deriving DecidableEq

/-- Builder handle of a binary index. -/
structure BinaryIndexBuilderHandle where
  column : String
deriving DecidableEq

/-- `MapIndex::builder(db, &column)`. -/
def MapIndex.builder (column : String) : MapIndexBuilderHandle :=
  ⟨column⟩

/-- `NumericIndex::builder(db, &column)`. -/
def NumericIndex.builder (column : String) : NumericIndexBuilderHandle :=
  .rocks column

/-- `NumericIndex::builder_mmap(dir)`. -/
def NumericIndex.builder_mmap (dir : String) : NumericIndexBuilderHandle :=
  .mmap dir

/-- `FieldIndexBuilder`: the enumerated union of index builders.  Its
declaration is not under `src/`; the variants used by `index_builder_selector`
are taken from the source, and the UUID builder variants the spec's decision
table requires ("all frozen-capable variants expose builder alternatives") are
included as declared elsewhere in the repository. -/
inductive FieldIndexBuilder where
  | KeywordIndex (h : MapIndexBuilderHandle)
  | IntMapIndex (h : MapIndexBuilderHandle)
  | IntMmapIndex (h : NumericIndexBuilderHandle)
  | IntIndex (h : NumericIndexBuilderHandle)
  | FloatMmapIndex (h : NumericIndexBuilderHandle)
  | FloatIndex (h : NumericIndexBuilderHandle)
  | GeoIndex (h : GeoIndexBuilderHandle)
  | FullTextIndex (h : FullTextIndexBuilderHandle)
  | BinaryIndex (h : BinaryIndexBuilderHandle)
  | DatetimeMmapIndex (h : NumericIndexBuilderHandle)
  | DatetimeIndex (h : NumericIndexBuilderHandle)
  | UuidMmapIndex (h : NumericIndexBuilderHandle)
  | UuidIndex (h : NumericIndexBuilderHandle)
deriving DecidableEq

/-- `index_builder_selector` (index_selector.rs lines 91-149).  The
`create_dir_all(dir).unwrap()` side effect is modelled by the oracle
`create_dir_all_ok`: when a frozen directory is supplied and creation fails
the function panics, modelled as `none`; otherwise it returns the builders. -/
def index_builder_selector (create_dir_all_ok : String → Bool) (field : JsonPath)
    (payload_schema : PayloadFieldSchema) (mmap_index_dir : Option String) :
    Option (List FieldIndexBuilder) := do
  let column : String := field.to_string
  match mmap_index_dir with
  | some dir => if create_dir_all_ok dir then pure () else none
  | none => pure ()
  pure (match payload_schema.expand with
  | .Keyword => [.KeywordIndex (MapIndex.builder column)]
  | .Integer integer_params =>
      (if integer_params.lookup then
        [FieldIndexBuilder.IntMapIndex (MapIndex.builder column)]
      else []) ++
      (if integer_params.range then
        [match mmap_index_dir with
          | some dir => FieldIndexBuilder.IntMmapIndex (NumericIndex.builder_mmap dir)
          | none => FieldIndexBuilder.IntIndex (NumericIndex.builder column)]
      else [])
  | .Float =>
      [match mmap_index_dir with
        | some dir => .FloatMmapIndex (NumericIndex.builder_mmap dir)
        | none => .FloatIndex (NumericIndex.builder column)]
  | .Geo => [.GeoIndex ⟨column⟩]
  | .Text text_index_params => [.FullTextIndex ⟨text_index_params, column⟩]
  | .Bool => [.BinaryIndex ⟨column⟩]
  | .Datetime =>
      [match mmap_index_dir with
        | some dir => .FloatMmapIndex (NumericIndex.builder_mmap dir)
        | none => .FloatIndex (NumericIndex.builder column)]
  | .Uuid =>
      [match mmap_index_dir with
        | some dir => .DatetimeMmapIndex (NumericIndex.builder_mmap dir)
        | none => .DatetimeIndex (NumericIndex.builder column)])

/-- The index kind of a variant, for comparing the selector's and the builder
dispatch's decision tables. -/
inductive IndexKind where
  | keyword
  | intMap
  | int
  | float
  | geo
  | text
  | bool
  | datetime
  | uuid
deriving DecidableEq

/-- Kind of a `FieldIndex` variant. -/
def FieldIndex.kind : FieldIndex → IndexKind
  | .KeywordIndex _ => .keyword
  | .IntMapIndex _ => .intMap
  | .IntIndex _ => .int
  | .FloatIndex _ => .float
  | .GeoIndex _ => .geo
  | .FullTextIndex _ => .text
  | .BinaryIndex _ => .bool
  | .DatetimeIndex _ => .datetime
  | .UuidIndex _ => .uuid

/-- Kind of a `FieldIndexBuilder` variant. -/
def FieldIndexBuilder.kind : FieldIndexBuilder → IndexKind
  | .KeywordIndex _ => .keyword
  | .IntMapIndex _ => .intMap
  | .IntMmapIndex _ => .int
  | .IntIndex _ => .int
  | .FloatMmapIndex _ => .float
  | .FloatIndex _ => .float
  | .GeoIndex _ => .geo
  | .FullTextIndex _ => .text
  | .BinaryIndex _ => .bool
  | .DatetimeMmapIndex _ => .datetime
  | .DatetimeIndex _ => .datetime
  | .UuidMmapIndex _ => .uuid
  | .UuidIndex _ => .uuid

/-! ## Concrete scenario states -/

/-- The spec's scenario index: `build` with forward map `[[], [a, b], [a]]`
and inverted map `{a: [1, 2], b: [1]}`. -/
def scenarioIndex : MmapMapIndex String :=
  MmapMapIndex.build [[], ["a", "b"], ["a"]] [("a", [1, 2]), ("b", [1])]

/-- A loaded index whose on-disk hash map errors on every lookup (e.g. a
corrupted `values_to_points.bin`); forward store and deleted bits empty. -/
def erroringIndex : MmapMapIndex String :=
  { value_to_points := ⟨fun _ => Except.error (), []⟩
    point_to_values := ⟨[]⟩
    deleted := []
    deleted_count := 0
    total_key_value_pairs := 0 }

/-- State for the deleted-count arithmetic: `build` with one point holding one
value, then `remove_point 0` followed by `remove_point 1` (index 1 is inside
the padded bit slice but beyond the single known point). -/
def paddedRemovalState : MmapMapIndex String :=
  ((MmapMapIndex.build [["a"]] []).remove_point 0).remove_point 1

/-! ## Theorems -/

/-- C1: in the source, `check_values_any` checks the stored values when
`deleted.get(idx).unwrap_or(true)` is true and returns false otherwise — the
guard is inverted relative to its siblings `get_values`/`values_count` and to
the documented behaviour ("true iff the point is live and at least one value
satisfies the predicate").  Concretely, in the spec's scenario index point 1 is
live and holds the value "a", yet `check_values_any 1 (· == "a")` is false. -/
theorem check_values_any_inverted_on_live_point :
    (scenarioIndex.deleted.get? 1).getD true = false ∧
    ((scenarioIndex.point_to_values.rows.get? 1).getD []).any (fun v => v == "a") = true ∧
    scenarioIndex.check_values_any 1 (fun v => v == "a") = false := by
  refine ⟨by decide, rfl, by decide⟩

/-- C2: the builder dispatch does NOT follow `index_selector`'s decision table
for Datetime and UUID: a Datetime schema yields a Float-kind numeric builder
(`index_selector` yields a Datetime-kind index), and a UUID schema yields a
Datetime-kind builder (`index_selector` yields a UUID-kind index). -/
theorem builder_kind_mismatch_datetime_uuid :
    ((index_builder_selector (fun _ => true) ⟨"f"⟩ ⟨PayloadSchemaParams.Datetime⟩ none).getD
      []).map FieldIndexBuilder.kind = [IndexKind.float] ∧
    ((index_selector ⟨"f"⟩ ⟨PayloadSchemaParams.Datetime⟩ none false).toOption.getD
      []).map FieldIndex.kind = [IndexKind.datetime] ∧
    ((index_builder_selector (fun _ => true) ⟨"f"⟩ ⟨PayloadSchemaParams.Uuid⟩ none).getD
      []).map FieldIndexBuilder.kind = [IndexKind.datetime] ∧
    ((index_selector ⟨"f"⟩ ⟨PayloadSchemaParams.Uuid⟩ none false).toOption.getD
      []).map FieldIndex.kind = [IndexKind.uuid] ∧
    IndexKind.float ≠ IndexKind.datetime ∧ IndexKind.datetime ≠ IndexKind.uuid := by
  exact ⟨rfl, rfl, rfl, rfl, by decide, by decide⟩

/-- C4: the spec's scenario — `build` with forward map `[[], [a, b], [a]]` and
inverted map `{a: [1, 2], b: [1]}` gives `get_indexed_points = 2` (point 0,
having no values, is pre-marked deleted at build time), `get_values_count = 3`,
`get_unique_values_count = 2` and `get_count_for_value a = 2`. -/
theorem scenario_build_counts :
    scenarioIndex.get_indexed_points = 2 ∧
    scenarioIndex.get_values_count = 3 ∧
    scenarioIndex.get_unique_values_count = 2 ∧
    scenarioIndex.get_count_for_value "a" = some 2 := by
  refine ⟨by decide, rfl, rfl, rfl⟩

/-- C8: for every point identifier at or beyond the known point count,
`get_values` returns absent: whichever way the deleted-bit default resolves,
the point-to-values store has no entry there.  (The model is total, so no
panic or invalid read is possible.) -/
theorem get_values_out_of_range_none {N : Type} (s : MmapMapIndex N) (p : Nat)
    (h : s.point_to_values.len ≤ p) : s.get_values p = none := by
  unfold MmapMapIndex.get_values MmapPointToValues.get_values
  split
  · exact List.get?_eq_none.mpr h
  · rfl

/-- Witness for C8: the scenario index knows 3 points, and `get_values 3`
is absent. -/
theorem get_values_out_of_range_none_witness :
    scenarioIndex.get_values 3 = none :=
  get_values_out_of_range_none scenarioIndex 3 (by decide)

/-- C9: with a frozen-index directory supplied, `index_builder_selector` first
runs `create_dir_all(dir).unwrap()`: if directory creation fails the call
panics (modelled as `none`) before any builder is produced, for every schema;
if it succeeds, builders are returned. -/
theorem builder_dir_creation_gate (create_dir_all_ok : String → Bool) (field : JsonPath)
    (payload_schema : PayloadFieldSchema) (dir : String) :
    (create_dir_all_ok dir = false →
      index_builder_selector create_dir_all_ok field payload_schema (some dir) = none) ∧
    (create_dir_all_ok dir = true →
      ∃ builders, index_builder_selector create_dir_all_ok field payload_schema (some dir)
        = some builders) := by
  constructor
  · intro h
    simp only [index_builder_selector]
    rw [h]
    rfl
  · intro h
    simp only [index_builder_selector]
    rw [h]
    exact ⟨_, rfl⟩

/-- Witness for C9: a failing directory creation makes the builder dispatch
panic (no builders returned) for a Keyword schema. -/
theorem builder_dir_creation_gate_witness :
    index_builder_selector (fun _ => false) ⟨"f"⟩ ⟨PayloadSchemaParams.Keyword⟩ (some "d")
      = none :=
  (builder_dir_creation_gate (fun _ => false) ⟨"f"⟩ ⟨PayloadSchemaParams.Keyword⟩ "d").1 rfl

/-- C10: when the underlying hash-map lookup for a value fails with an error,
`get_count_for_value` returns absent and `get_iterator` returns the empty
sequence — the `.ok().flatten()` conversion swallows the error. -/
theorem hashmap_error_to_absent {N : Type} (s : MmapMapIndex N) (v : N)
    (h : s.value_to_points.get_raw v = Except.error ()) :
    s.get_count_for_value v = none ∧ s.get_iterator v = [] := by
  unfold MmapMapIndex.get_count_for_value MmapMapIndex.get_iterator MmapHashMap.get
  rw [h]
  exact ⟨rfl, rfl⟩

/-- Witness for C10: an index whose hash map errors on every lookup reports
the unindexed-value outcome. -/
theorem hashmap_error_to_absent_witness :
    erroringIndex.get_count_for_value "a" = none ∧ erroringIndex.get_iterator "a" = [] :=
  hashmap_error_to_absent erroringIndex "a" rfl

/-- The numeric range handle `index_selector` constructs for an Integer
schema's `range` capability: frozen over the directory when one is supplied,
appendable over the column otherwise (index_selector.rs lines 42-45). -/
def integerRangeHandle (mmap_index_dir : Option String) (column : String)
    (is_appendable : Bool) : NumericIndexHandle :=
  match mmap_index_dir with
  | some dir => NumericIndexHandle.mmap dir
  | none => NumericIndex.new column is_appendable

/-- C3: for an Integer schema with at least one capability enabled (schema
validation outside the embedded sources rules out both-disabled), the
selector's result is exactly the lookup map handle when `lookup` is enabled
followed by the range numeric handle when `range` is enabled — so each handle
appears iff its flag is set, the collection is nonempty, the lookup entry
precedes the range entry when both flags are on, and the column name passed to
every constructor taking one is the string form of the field path. -/
theorem integer_selector_layout (field : JsonPath) (p : IntegerParams)
    (dir : Option String) (app : Bool) (hvalid : p.lookup = true ∨ p.range = true) :
    index_selector field ⟨.Integer p⟩ dir app =
      Except.ok ((if p.lookup then
          [FieldIndex.IntMapIndex (MapIndex.new field.to_string app)] else []) ++
        (if p.range then
          [FieldIndex.IntIndex (integerRangeHandle dir field.to_string app)] else [])) ∧
    ((if p.lookup then
        [FieldIndex.IntMapIndex (MapIndex.new field.to_string app)] else []) ++
      (if p.range then
        [FieldIndex.IntIndex (integerRangeHandle dir field.to_string app)] else [])) ≠ [] := by
  rcases p with ⟨lk, rg⟩
  cases lk <;> cases rg <;> rcases dir with _ | d
  · exact absurd hvalid (by decide)
  · exact absurd hvalid (by decide)
  · exact ⟨rfl, by simp⟩
  · exact ⟨rfl, by simp⟩
  · exact ⟨rfl, by simp⟩
  · exact ⟨rfl, by simp⟩
  · exact ⟨rfl, by simp⟩
  · exact ⟨rfl, by simp⟩

/-- Witness for C3: Integer schema with both `lookup` and `range` enabled, no
frozen directory — two handles, lookup first, both over the field's column. -/
theorem integer_selector_layout_witness :
    index_selector ⟨"f"⟩ ⟨.Integer ⟨true, true⟩⟩ none true =
      Except.ok ((if true then
          [FieldIndex.IntMapIndex (MapIndex.new (JsonPath.to_string ⟨"f"⟩) true)] else []) ++
        (if true then
          [FieldIndex.IntIndex (integerRangeHandle none (JsonPath.to_string ⟨"f"⟩) true)] else [])) ∧
    ((if true then
        [FieldIndex.IntMapIndex (MapIndex.new (JsonPath.to_string ⟨"f"⟩) true)] else []) ++
      (if true then
        [FieldIndex.IntIndex (integerRangeHandle none (JsonPath.to_string ⟨"f"⟩) true)] else [])) ≠ [] :=
  integer_selector_layout ⟨"f"⟩ ⟨true, true⟩ none true (Or.inl rfl)

/-- Setting position `p` of a list and reading it back. -/
theorem list_get?_set_self {α : Type} (a : α) (l : List α) (p : Nat) (h : p < l.length) :
    (l.set p a).get? p = some a := by
  induction l generalizing p with
  | nil => cases h
  | cons b t ih =>
    cases p with
    | zero => rfl
    | succ q => exact ih q (Nat.lt_of_succ_lt_succ h)

/-- `remove_point` on a point whose deleted bit already reads as set (or is out
of the bit slice) leaves the state untouched. -/
theorem remove_point_noop {N : Type} (t : MmapMapIndex N) (i : Nat)
    (h : (t.deleted.get? i).getD true = true) : t.remove_point i = t := by
  unfold MmapMapIndex.remove_point
  rw [if_neg]
  intro hc
  rw [h] at hc
  cases hc.2

/-- C5: for a live, in-range point `p` (its deleted bit exists and is clear),
after `remove_point p` both `get_values p` and `values_count p` are absent, and
a second `remove_point p` is a no-op: the whole state — in particular the
deleted bits — and `get_indexed_points` are unchanged. -/
theorem remove_point_absent_and_idempotent {N : Type} (s : MmapMapIndex N) (p : Nat)
    (hlive : s.deleted.get? p = some false) :
    (s.remove_point p).get_values p = none ∧
    (s.remove_point p).values_count p = none ∧
    (s.remove_point p).remove_point p = s.remove_point p ∧
    ((s.remove_point p).remove_point p).get_indexed_points
      = (s.remove_point p).get_indexed_points := by
  have hp : p < s.deleted.length := by
    rcases Nat.lt_or_ge p s.deleted.length with h | h
    · exact h
    · rw [List.get?_eq_none.mpr h] at hlive
      cases hlive
  have hs1 : s.remove_point p =
      { s with deleted := s.deleted.set p true, deleted_count := s.deleted_count + 1 } := by
    unfold MmapMapIndex.remove_point
    rw [if_pos ⟨hp, by rw [hlive]; rfl⟩]
  have hbit : ((s.remove_point p).deleted.get? p).getD true = true := by
    rw [hs1]
    show ((s.deleted.set p true).get? p).getD true = true
    rw [list_get?_set_self true s.deleted p hp]
    rfl
  have hno : (s.remove_point p).remove_point p = s.remove_point p :=
    remove_point_noop (s.remove_point p) p hbit
  refine ⟨?_, ?_, hno, by rw [hno]⟩
  · unfold MmapMapIndex.get_values
    rw [if_neg]
    rw [hbit]
    decide
  · unfold MmapMapIndex.values_count
    rw [if_neg]
    rw [hbit]
    decide

/-- Witness for C5: point 1 of the scenario index is live; removing it hides
its values and a repeat removal changes nothing. -/
theorem remove_point_absent_and_idempotent_witness :
    (scenarioIndex.remove_point 1).get_values 1 = none ∧
    (scenarioIndex.remove_point 1).values_count 1 = none ∧
    (scenarioIndex.remove_point 1).remove_point 1 = scenarioIndex.remove_point 1 ∧
    ((scenarioIndex.remove_point 1).remove_point 1).get_indexed_points
      = (scenarioIndex.remove_point 1).get_indexed_points :=
  remove_point_absent_and_idempotent scenarioIndex 1 (by decide)

/-- Setting a clear bit increases the number of set bits by one. -/
theorem list_count_true_set (l : List Bool) (i : Nat) (h : l.get? i = some false) :
    (l.set i true).count true = l.count true + 1 := by
  induction l generalizing i with
  | nil => cases h
  | cons b t ih =>
    cases i with
    | zero =>
      simp only [List.get?] at h
      injection h with hb
      subst hb
      show (true :: t).count true = (false :: t).count true + 1
      rw [List.count_cons, List.count_cons]
      simp
    | succ j =>
      simp only [List.get?] at h
      show (b :: t.set j true).count true = (b :: t).count true + 1
      rw [List.count_cons, List.count_cons, ih j h]
      omega

/-- A bit list whose set bits all lie below `n` has at most `n` set bits. -/
theorem count_true_le_of_confined (l : List Bool) (n : Nat)
    (h : ∀ j, n ≤ j → l.get? j ≠ some true) : l.count true ≤ n := by
  induction l generalizing n with
  | nil => simp
  | cons b t ih =>
    cases n with
    | zero =>
      have hb : b = false := by
        cases b
        · rfl
        · exact absurd (show (true :: t).get? 0 = some true from rfl) (h 0 (Nat.le_refl 0))
      subst hb
      have ht : t.count true ≤ 0 := ih 0 (fun j hj => by
        have := h (j + 1) (Nat.zero_le _)
        simpa using this)
      rw [List.count_cons]
      simpa using ht
    | succ m =>
      have ht : t.count true ≤ m := ih m (fun j hj => by
        have := h (j + 1) (Nat.succ_le_succ hj)
        simpa using this)
      rw [List.count_cons]
      have hbit : (if b == true then 1 else 0) ≤ 1 := by cases b <;> simp
      omega

/-- At build time every set deleted bit lies below the point count: only
empty-valued points are pre-marked, padding bits stay clear. -/
theorem buildDeletedBits_confined {N : Type} (rows : List (List N)) :
    ∀ j, rows.length ≤ j → (buildDeletedBits rows).get? j ≠ some true := by
  intro j hj
  unfold buildDeletedBits
  rcases Nat.lt_or_ge j (deletedFileBits rows.length) with hlt | hge
  · rw [List.get?_map, List.get?_range hlt]
    intro hc
    injection hc with hc2
    simp only [] at hc2
    rw [List.get?_eq_none.mpr hj] at hc2
    simp at hc2
  · rw [List.get?_eq_none.mpr (by simpa using hge)]
    simp

/-- Reachability invariant for an index built over `rows`: the forward store is
unchanged, `deleted_count` tracks the number of set deleted bits, and every set
deleted bit lies below the point count. -/
def RemInv {N : Type} (rows : List (List N)) (s : MmapMapIndex N) : Prop :=
  s.point_to_values.rows = rows ∧
  s.deleted_count = s.deleted.count true ∧
  ∀ j, rows.length ≤ j → s.deleted.get? j ≠ some true

/-- `remove_point` at an in-range index preserves the reachability invariant. -/
theorem remInv_remove_point {N : Type} {rows : List (List N)} {s : MmapMapIndex N}
    (hinv : RemInv rows s) (i : Nat) (hi : i < rows.length) :
    RemInv rows (s.remove_point i) := by
  obtain ⟨hrows, hcount, hconf⟩ := hinv
  unfold MmapMapIndex.remove_point
  split
  case isTrue hc =>
    have hsome : s.deleted.get? i = some false := by
      cases hg : s.deleted.get? i with
      | none => rw [hg] at hc; cases hc.2
      | some b =>
        have hb := hc.2
        rw [hg] at hb
        simp only [Option.getD] at hb
        rw [hb]
    refine ⟨hrows, ?_, ?_⟩
    · show s.deleted_count + 1 = (s.deleted.set i true).count true
      rw [list_count_true_set s.deleted i hsome, hcount]
    · intro j hj
      show (s.deleted.set i true).get? j ≠ some true
      have hne : i ≠ j := fun he => absurd (he ▸ hi) (Nat.not_lt.mpr hj)
      rw [List.get?_set_ne true s.deleted hne]
      exact hconf j hj
  case isFalse hc => exact ⟨hrows, hcount, hconf⟩

/-- The reachability invariant survives any sequence of in-range removals. -/
theorem remInv_applyRemoves {N : Type} {rows : List (List N)} {s : MmapMapIndex N}
    (hinv : RemInv rows s) (l : List Nat) (hl : ∀ i ∈ l, i < rows.length) :
    RemInv rows (applyRemoves s l) := by
  induction l generalizing s with
  | nil => exact hinv
  | cons i t ih =>
    rw [applyRemoves, List.foldl_cons, ← applyRemoves]
    exact ih (remInv_remove_point hinv i (hl i (List.mem_cons_self i t)))
      (fun j hj => hl j (List.mem_cons_of_mem i hj))

/-- A freshly built index satisfies the reachability invariant. -/
theorem remInv_build {N : Type} [BEq N] (rows : List (List N)) (vmap : List (N × List Nat)) :
    RemInv rows (MmapMapIndex.build rows vmap) :=
  ⟨rfl, rfl, buildDeletedBits_confined rows⟩

/-- C6 (amended): after any finite sequence of `remove_point` calls whose
indices are all below the forward-entry count — including the empty sequence —
`get_indexed_points` equals the exact integer difference between the total
number of forward entries and the current `deleted_count` (without the
in-range restriction only the saturating form holds, see the
counterexample). -/
theorem indexed_points_invariant_in_range {N : Type} [BEq N] (rows : List (List N))
    (vmap : List (N × List Nat)) (l : List Nat) (hl : ∀ i ∈ l, i < rows.length) :
    ((applyRemoves (MmapMapIndex.build rows vmap) l).get_indexed_points : Int)
      = ((applyRemoves (MmapMapIndex.build rows vmap) l).point_to_values.len : Int)
        - ((applyRemoves (MmapMapIndex.build rows vmap) l).deleted_count : Int) := by
  obtain ⟨hrows, hcount, hconf⟩ := remInv_applyRemoves (remInv_build rows vmap) l hl
  have hle : (applyRemoves (MmapMapIndex.build rows vmap) l).deleted_count ≤ rows.length := by
    rw [hcount]
    exact count_true_le_of_confined _ _ hconf
  have hlen : (applyRemoves (MmapMapIndex.build rows vmap) l).point_to_values.len
      = rows.length := by
    rw [MmapPointToValues.len, hrows]
  rw [MmapMapIndex.get_indexed_points, hlen]
  omega

/-- Witness for C6 (amended): build over two points, remove point 0 twice —
the exact equality holds. -/
theorem indexed_points_invariant_in_range_witness :
    ((applyRemoves (MmapMapIndex.build [["a"], []] [("a", [0])]) [0, 0]).get_indexed_points : Int)
      = ((applyRemoves (MmapMapIndex.build [["a"], []] [("a", [0])]) [0, 0]).point_to_values.len : Int)
        - ((applyRemoves (MmapMapIndex.build [["a"], []] [("a", [0])]) [0, 0]).deleted_count : Int) :=
  indexed_points_invariant_in_range [["a"], []] [("a", [0])] [0, 0] (by decide)

/-- `remove_point` never touches the persisted historical pair count. -/
theorem remove_point_total {N : Type} (s : MmapMapIndex N) (i : Nat) :
    (s.remove_point i).total_key_value_pairs = s.total_key_value_pairs := by
  unfold MmapMapIndex.remove_point
  split <;> rfl

/-- Neither does any sequence of removals. -/
theorem applyRemoves_total {N : Type} (s : MmapMapIndex N) (l : List Nat) :
    (applyRemoves s l).total_key_value_pairs = s.total_key_value_pairs := by
  induction l generalizing s with
  | nil => rfl
  | cons i t ih => rw [applyRemoves, List.foldl_cons, ← applyRemoves, ih, remove_point_total]

/-- C7: `get_values_count` is unchanged by any number of `remove_point` calls
on any index state, and on an index produced by `build` (after any removals)
it equals the sum of the lengths of the per-point forward value lists. -/
theorem values_count_build_and_stable {N : Type} [BEq N] (s : MmapMapIndex N)
    (l : List Nat) (rows : List (List N)) (vmap : List (N × List Nat)) :
    (applyRemoves s l).get_values_count = s.get_values_count ∧
    (applyRemoves (MmapMapIndex.build rows vmap) l).get_values_count
      = (rows.map List.length).sum := by
  constructor
  · exact applyRemoves_total s l
  · rw [MmapMapIndex.get_values_count, applyRemoves_total]
    rfl

/-- C6 counterexample: the exact (integer) equality
`get_indexed_points = total_forward_entries - deleted_count` fails after the
remove sequence `[0, 1]` on `build [[a]] {}`: index 1 lies inside the padded
deleted bit slice but beyond the single known point, so `remove_point 1`
increments `deleted_count` to 2 while only one forward entry exists, and the
saturating subtraction returns 0 ≠ 1 - 2. -/
theorem indexed_points_exact_sub_fails :
    ¬ ((paddedRemovalState.get_indexed_points : Int) =
      (paddedRemovalState.point_to_values.len : Int) - (paddedRemovalState.deleted_count : Int)) := by
  decide
